import Mathlib

/-!
# World JS rules (`src/js/world.rules.js`)

A shallow embedding of the `Rules` constructor and of `Rules.prototype.change`.

Number model.  Every JavaScript number held in the world statistics or in the rules
is taken to be a finite value and is represented by a rational.  Sums, differences and
the products that feed `chance.death` are exact: their rounding to IEEE doubles and
their overflow to `Infinity` are not modelled.  The product `food * foodDecr` of line
125 is floored, so its rounding can change the integer that is committed; it is a
parameter `mul` of the embedding: `jsMul` is the product of doubles (round to nearest,
ties to even), and `Rules.change` is the instance with the exact product.  The two
operators that leave the finite numbers when their right operand is zero, `/` (line 119)
and `%` (line 124), return a `JsNum`, which adds `Infinity`, `-Infinity` and `NaN` to the
rationals, and each of their evaluations is recorded with its operands; the value written
to `chance.death` is therefore a `JsNum`.
-/

namespace WorldJS

/-- A JavaScript number: a finite value, or one of the three non-finite values. -/
inductive JsNum where
  | fin (q : ℚ)
  | posInf
  | negInf
  | nan
  deriving DecidableEq

namespace JsNum

/-- JavaScript `a + b`. -/
def add : JsNum → JsNum → JsNum
  | fin a, fin b => fin (a + b)
  | nan, _ => nan
  | _, nan => nan
  | posInf, negInf => nan
  | negInf, posInf => nan
  | posInf, _ => posInf
  | _, posInf => posInf
  | negInf, _ => negInf
  | _, negInf => negInf

/-- Sign rule for the product of an infinity (`pos` tells which one) with a finite
number: zero gives `NaN`. -/
def infMul (pos : Bool) (q : ℚ) : JsNum :=
  if q = 0 then nan
  else if (0 < q) = pos then posInf
  else negInf

/-- JavaScript `a * b`. -/
def mul : JsNum → JsNum → JsNum
  | fin a, fin b => fin (a * b)
  | nan, _ => nan
  | _, nan => nan
  | posInf, fin b => infMul true b
  | negInf, fin b => infMul false b
  | fin a, posInf => infMul true a
  | fin a, negInf => infMul false a
  | posInf, posInf => posInf
  | negInf, negInf => posInf
  | posInf, negInf => negInf
  | negInf, posInf => negInf

/-- JavaScript `Math.floor`: the non-finite values are returned as they are. -/
def floor : JsNum → JsNum
  | fin a => fin (⌊a⌋ : ℤ)
  | x => x

end JsNum

/-- JavaScript `a / b` on finite operands (the zero divisor is `+0`). -/
def jsDiv (a b : ℚ) : JsNum :=
  if b = 0 then
    if a = 0 then JsNum.nan
    else if 0 < a then JsNum.posInf
    else JsNum.negInf
  else JsNum.fin (a / b)

/-- Rounding towards zero, as used by the JavaScript remainder. -/
def jsTrunc (q : ℚ) : ℤ :=
  if 0 ≤ q then ⌊q⌋ else ⌈q⌉

/-- JavaScript `a % b` on finite operands: the remainder has the sign of the
dividend, and a zero divisor gives `NaN`. -/
def jsRem (a b : ℚ) : JsNum :=
  if b = 0 then JsNum.nan
  else JsNum.fin (a - b * (jsTrunc (a / b) : ℤ))

/-- Rounding to the nearest integer, a tie going to the even one. -/
def roundHalfEven (q : ℚ) : ℤ :=
  let n := ⌊q⌋
  if q - n < 1 / 2 then n
  else if 1 / 2 < q - n then n + 1
  else if n % 2 = 0 then n else n + 1

/-- The double nearest to a rational, a tie going to the even significand: 53
significant bits, least exponent -1022 (below it the spacing stays `2 ^ (-1074)`).
Overflow to `Infinity` is not modelled. -/
def roundDouble (q : ℚ) : ℚ :=
  if q = 0 then 0
  else
    let e := max (Int.log 2 |q|) (-1022)
    roundHalfEven (q / 2 ^ (e - 52)) * 2 ^ (e - 52)

/-- JavaScript `a * b` on doubles: the exact product, rounded. -/
def jsMul (a b : ℚ) : ℚ :=
  roundDouble (a * b)

/-- An evaluation of `/` or of `%` by `change`, with its two operands. -/
inductive ArithOp where
  | div (a b : ℚ)
  | rem (a b : ℚ)
  deriving DecidableEq

/-- The right operand of the operation. -/
def ArithOp.divisor : ArithOp → ℚ
  | ArithOp.div _ b => b
  | ArithOp.rem _ b => b

/-- The value of `a / b`, and the record of this evaluation. -/
def tracedDiv (a b : ℚ) : JsNum × List ArithOp :=
  (jsDiv a b, [ArithOp.div a b])

/-- The value of `a % b`, and the record of this evaluation. -/
def tracedRem (a b : ℚ) : JsNum × List ArithOp :=
  (jsRem a b, [ArithOp.rem a b])

/-- The object `worldRules.population`. -/
structure Population where
  limit : ℚ
  deriving DecidableEq

/-- The object `worldRules.chance`; `death` is the field `change` writes. -/
structure Chance where
  death : JsNum
  marriage : ℚ
  childbirth : ℚ
  deriving DecidableEq

/-- The object `worldRules.chanceIncr`. -/
structure ChanceIncr where
  death : ℚ
  marriage : ℚ
  childbirth : ℚ
  deriving DecidableEq

/-- The object `worldRules.food`. -/
structure Food where
  adult : ℚ
  child : ℚ
  resourceIncr : ℚ
  min : ℚ
  deriving DecidableEq

/-- The object `worldRules.famine`. -/
structure Famine where
  deathChanceIncr : ℚ
  unit : ℚ
  deriving DecidableEq

/-- The object `worldRules.foodSpoilage`. -/
structure FoodSpoilage where
  foodDecr : ℚ
  interval : ℚ
  deriving DecidableEq

/-- The object `worldRules.largeCooperation`. -/
structure LargeCooperation where
  deathChanceIncr : ℚ
  unit : ℚ
  deriving DecidableEq

/-- The fields of a `Rules` object (the back reference `world` is the enclosing
`World` value). -/
structure Rules where
  population : Population
  baseIQ : ℚ
  chance : Chance
  chanceIncr : ChanceIncr
  food : Food
  famine : Famine
  foodSpoilage : FoodSpoilage
  largeCooperation : LargeCooperation
  deriving DecidableEq

/-- The fields of `world.statistic` that `change` reads or writes. -/
structure Statistic where
  year : ℚ
  food : ℚ
  foodResource : ℚ
  population : ℚ
  men : ℚ
  women : ℚ
  boys : ℚ
  girls : ℚ
  deriving DecidableEq

/-- A world: its statistics and its rules. -/
structure World where
  statistic : Statistic
  rules : Rules
  deriving DecidableEq

/-- The `Rules` constructor (lines 22-73): the default rules of a world. -/
def Rules.construct : Rules where
  population := { limit := 100 }
  baseIQ := 0
  chance := { death := JsNum.fin 0, marriage := 0, childbirth := 0 }
  chanceIncr := { death := 0, marriage := 0, childbirth := 0 }
  food := { adult := 1, child := -1, resourceIncr := 0, min := -10000 }
  famine := { deathChanceIncr := 1 / 10, unit := -100 }
  foodSpoilage := { foodDecr := 9 / 10, interval := 1 }
  largeCooperation := { deathChanceIncr := 1 / 10, unit := 1 }

/-- Line 99: `totalAdult = worldStatistic.men + worldStatistic.women`. -/
def totalAdult (w : World) : ℚ :=
  w.statistic.men + w.statistic.women

/-- Line 100: `totalChildren = worldStatistic.boys + worldStatistic.girls`. -/
def totalChildren (w : World) : ℚ :=
  w.statistic.boys + w.statistic.girls

/-- Line 102: `foodProduce = Math.min(foodResource, totalAdult * food.adult)`. -/
def foodProduce (w : World) : ℚ :=
  min w.statistic.foodResource (totalAdult w * w.rules.food.adult)

/-- Line 103: `foodConsume = totalChildren * food.child`. -/
def foodConsume (w : World) : ℚ :=
  totalChildren w * w.rules.food.child

/-- Line 104: `foodDelta = foodProduce + foodConsume`. -/
def foodDelta (w : World) : ℚ :=
  foodProduce w + foodConsume w

/-- Line 107: `foodResource = Math.max(0, foodResource - foodProduce)`. -/
def newFoodResource (w : World) : ℚ :=
  max 0 (w.statistic.foodResource - foodProduce w)

/-- Lines 108-112: `food += foodDelta`, then `food = food.min` if `food < food.min`. -/
def clampedFood (w : World) : ℚ :=
  let food := w.statistic.food + foodDelta w
  if food < w.rules.food.min then w.rules.food.min else food

/-- Lines 114-121, the famine rule: the value of `deathChance` after it, and the
divisions it has evaluated. -/
def famineRule (w : World) : JsNum × List ArithOp :=
  let food := clampedFood w
  let deathChance := JsNum.fin 0
  if food ≤ w.rules.famine.unit then
    let quotient := tracedDiv food w.rules.famine.unit
    let delta := JsNum.floor quotient.1
    (JsNum.add deathChance (JsNum.mul delta (JsNum.fin w.rules.famine.deathChanceIncr)),
      quotient.2)
  else (deathChance, [])

/-- Lines 114-121: the value of `deathChance` after the famine rule. -/
def deathChanceAfterFamine (w : World) : JsNum :=
  (famineRule w).1

/-- Line 124, the left operand of `===`: `worldStatistic.year % foodSpoilage.interval`,
and the record of its evaluation. -/
def yearRemainder (w : World) : JsNum × List ArithOp :=
  tracedRem w.statistic.year w.rules.foodSpoilage.interval

/-- Line 124: the condition of the food spoilage rule. -/
def spoilageApplies (w : World) : Prop :=
  (yearRemainder w).1 = JsNum.fin 0 ∧ 0 < clampedFood w

instance (w : World) : Decidable (spoilageApplies w) :=
  inferInstanceAs (Decidable (_ ∧ _))

/-- Lines 123-126: the value of `food` after the food spoilage rule, where `mul` is
the product of line 125. -/
def spoiledFoodWith (mul : ℚ → ℚ → ℚ) (w : World) : ℚ :=
  let food := clampedFood w
  if spoilageApplies w then
    food - (⌊mul food w.rules.foodSpoilage.foodDecr⌋ : ℤ)
  else food

/-- Lines 123-126 with the exact product. -/
def spoiledFood (w : World) : ℚ :=
  spoiledFoodWith (fun a b => a * b) w

/-- Lines 128-132: the value of `deathChance` after the population limit rule. -/
def deathChanceAfterLimit (w : World) : JsNum :=
  let deathChance := deathChanceAfterFamine w
  if w.statistic.population > w.rules.population.limit then
    let delta := w.statistic.population - w.rules.population.limit
    JsNum.add deathChance (JsNum.fin (delta * w.rules.largeCooperation.deathChanceIncr))
  else deathChance

/-- `Rules.prototype.change` (lines 89-138), where `mul` is the product of line 125:
the world after the three assignments of lines 135-137, and the divisions and remainders
the call has evaluated, in order (line 119 inside the famine branch, then line 124, whose
`%` is the left operand of `&&` and is evaluated in every call). -/
def Rules.changeTraced (mul : ℚ → ℚ → ℚ) (w : World) : World × List ArithOp :=
  ({ statistic :=
       { w.statistic with
         food := spoiledFoodWith mul w
         foodResource := newFoodResource w }
     rules :=
       { w.rules with
         chance :=
           { w.rules.chance with
             death :=
               JsNum.add (deathChanceAfterLimit w) (JsNum.fin w.rules.chanceIncr.death) } } },
    (famineRule w).2 ++ (yearRemainder w).2)

/-- The world committed by `change`, where `mul` is the product of line 125. -/
def Rules.changeWith (mul : ℚ → ℚ → ℚ) (w : World) : World :=
  (Rules.changeTraced mul w).1

/-- The world committed by `change` with the exact product on line 125. -/
def Rules.change (w : World) : World :=
  Rules.changeWith (fun a b => a * b) w

/-- The divisions and remainders that one call of `change` evaluates, in order. -/
def Rules.changeOps (w : World) : List ArithOp :=
  (Rules.changeTraced (fun a b => a * b) w).2

/-- The famine term of `chance.death`, in the words of the specification:
`floor(food / famine.unit) * famine.deathChanceIncr` when the clamped food balance
is at most `famine.unit`, and `0` otherwise. -/
def famineTerm (w : World) : JsNum :=
  if clampedFood w ≤ w.rules.famine.unit then
    JsNum.mul (JsNum.floor (jsDiv (clampedFood w) w.rules.famine.unit))
      (JsNum.fin w.rules.famine.deathChanceIncr)
  else JsNum.fin 0

/-- The crowding term of `chance.death`, in the words of the specification:
`(population - population.limit) * largeCooperation.deathChanceIncr` when the
population exceeds the limit, and `0` otherwise. -/
def crowdingTerm (w : World) : ℚ :=
  if w.statistic.population > w.rules.population.limit then
    (w.statistic.population - w.rules.population.limit) * w.rules.largeCooperation.deathChanceIncr
  else 0

/-- The statistics of the specification's food scenario (10 men, 10 women, 5 boys,
5 girls, a food resource of 100) in a given year and with a given food balance. -/
def scenarioStatistic (year food : ℚ) : Statistic where
  year := year
  food := food
  foodResource := 100
  population := 30
  men := 10
  women := 10
  boys := 5
  girls := 5

/-- The statistics of a world without inhabitants and without food resource. -/
def emptyStatistic (year food : ℚ) : Statistic where
  year := year
  food := food
  foodResource := 0
  population := 0
  men := 0
  women := 0
  boys := 0
  girls := 0

/-- The default rules with another minimum food value. -/
def rulesWithFoodMin (m : ℚ) : Rules :=
  { Rules.construct with food := { Rules.construct.food with min := m } }

/-- The default rules with another spoilage fraction. -/
def rulesWithFoodDecr (d : ℚ) : Rules :=
  { Rules.construct with foodSpoilage := { Rules.construct.foodSpoilage with foodDecr := d } }

/-- The default rules with another spoilage interval. -/
def rulesWithInterval (n : ℚ) : Rules :=
  { Rules.construct with foodSpoilage := { Rules.construct.foodSpoilage with interval := n } }

/-- An individual (`data.seed`): its `iq` and, as `other`, all of its remaining fields,
which are declared outside `world.rules.js`. -/
structure Seed (α : Type) where
  iq : ℚ
  other : α

/-- The `seedAdded` handler (lines 80-83): `data.seed.iq += world.rules.baseIQ`.
It returns the world and the individual after the call. -/
def seedAdded {α : Type} (w : World) (seed : Seed α) : World × Seed α :=
  (w, { seed with iq := seed.iq + w.rules.baseIQ })

/-- The world `w` with another previous value of `rules.chance.death`. -/
def withDeathChance (w : World) (d : JsNum) : World :=
  { w with rules := { w.rules with chance := { w.rules.chance with death := d } } }

/-- The world `w` with other values of `largeCooperation.unit` and
`food.resourceIncr`. -/
def withUnitAndResourceIncr (w : World) (u r : ℚ) : World :=
  { w with
    rules :=
      { w.rules with
        largeCooperation := { w.rules.largeCooperation with unit := u }
        food := { w.rules.food with resourceIncr := r } } }

/-- The world `w` with another starting value of `statistic.food`. -/
def withFood (w : World) (f : ℚ) : World :=
  { w with statistic := { w.statistic with food := f } }

/-- The famine term as a rational, for a food balance, a famine unit and an increment:
`floor(food / unit) * incr` when `food ≤ unit`, and `0` otherwise. -/
def famineValue (food unit incr : ℚ) : ℚ :=
  if food ≤ unit then (⌊food / unit⌋ : ℤ) * incr else 0

/-! ## Auxiliary facts -/

theorem JsNum.fin_zero_add (x : JsNum) : JsNum.add (JsNum.fin 0) x = x := by
  cases x <;> simp [JsNum.add]

theorem JsNum.add_fin_fin (a b : ℚ) : JsNum.add (JsNum.fin a) (JsNum.fin b) = JsNum.fin (a + b) :=
  rfl

theorem clampedFood_eq_max (w : World) :
    clampedFood w = max w.rules.food.min (w.statistic.food + foodDelta w) := by
  unfold clampedFood
  simp only []
  split_ifs with h
  · exact (max_eq_left (le_of_lt h)).symm
  · exact (max_eq_right (not_lt.mp h)).symm

theorem foodMin_le_clampedFood (w : World) : w.rules.food.min ≤ clampedFood w := by
  rw [clampedFood_eq_max]
  exact le_max_left _ _

theorem foodDelta_eq (w : World) :
    foodDelta w =
      min w.statistic.foodResource ((w.statistic.men + w.statistic.women) * w.rules.food.adult)
        + (w.statistic.boys + w.statistic.girls) * w.rules.food.child :=
  rfl

theorem newFoodResource_eq (w : World) :
    newFoodResource w = w.statistic.foodResource - foodProduce w := by
  unfold newFoodResource
  apply max_eq_right
  have h : foodProduce w ≤ w.statistic.foodResource := min_le_left _ _
  linarith

theorem famineRule_eq (w : World) :
    famineRule w
      = (famineTerm w,
          if clampedFood w ≤ w.rules.famine.unit then
            [ArithOp.div (clampedFood w) w.rules.famine.unit]
          else []) := by
  unfold famineRule famineTerm tracedDiv
  by_cases h : clampedFood w ≤ w.rules.famine.unit
  · simp only [if_pos h]
    rw [JsNum.fin_zero_add]
  · simp only [if_neg h]

theorem deathChanceAfterFamine_eq (w : World) : deathChanceAfterFamine w = famineTerm w := by
  unfold deathChanceAfterFamine
  rw [famineRule_eq]

theorem changeOps_eq (w : World) :
    Rules.changeOps w
      = (if clampedFood w ≤ w.rules.famine.unit then
            [ArithOp.div (clampedFood w) w.rules.famine.unit]
          else [])
          ++ [ArithOp.rem w.statistic.year w.rules.foodSpoilage.interval] := by
  show (famineRule w).2 ++ (yearRemainder w).2 = _
  rw [famineRule_eq]
  rfl

theorem deathChanceAfterLimit_eq (w : World) :
    deathChanceAfterLimit w = JsNum.add (famineTerm w) (JsNum.fin (crowdingTerm w)) := by
  unfold deathChanceAfterLimit crowdingTerm
  simp only [deathChanceAfterFamine_eq]
  split_ifs
  · rfl
  · cases famineTerm w <;> simp [JsNum.add]

theorem famineSteps_eq (w : World) (hu : w.rules.famine.unit ≠ 0) :
    JsNum.floor (jsDiv (clampedFood w) w.rules.famine.unit)
      = JsNum.fin (⌊clampedFood w / w.rules.famine.unit⌋ : ℤ) := by
  simp [jsDiv, hu, JsNum.floor]

theorem spoiledFoodWith_of_not (mul : ℚ → ℚ → ℚ) (w : World) (h : ¬ spoilageApplies w) :
    spoiledFoodWith mul w = clampedFood w := by
  unfold spoiledFoodWith
  simp only [if_neg h]

theorem spoiledFoodWith_of_applies (mul : ℚ → ℚ → ℚ) (w : World) (h : spoilageApplies w) :
    spoiledFoodWith mul w
      = clampedFood w - (⌊mul (clampedFood w) w.rules.foodSpoilage.foodDecr⌋ : ℤ) := by
  unfold spoiledFoodWith
  simp only [if_pos h]

theorem spoiledFood_of_not (w : World) (h : ¬ spoilageApplies w) :
    spoiledFood w = clampedFood w :=
  spoiledFoodWith_of_not _ w h

theorem spoiledFood_of_applies (w : World) (h : spoilageApplies w) :
    spoiledFood w
      = clampedFood w - (⌊clampedFood w * w.rules.foodSpoilage.foodDecr⌋ : ℤ) :=
  spoiledFoodWith_of_applies _ w h

/-! ## Rounding to doubles -/

theorem log_two_eq (q : ℚ) (e : ℤ) (h1 : (2 : ℚ) ^ e ≤ q) (h2 : q < (2 : ℚ) ^ (e + 1)) :
    Int.log 2 q = e := by
  have hpos : 0 < q := lt_of_lt_of_le (zpow_pos (by norm_num) e) h1
  have ha : e ≤ Int.log 2 q :=
    (Int.zpow_le_iff_le_log (by norm_num) hpos).mp (by exact_mod_cast h1)
  have hb : Int.log 2 q < e + 1 :=
    (Int.lt_zpow_iff_log_lt (by norm_num) hpos).mp (by exact_mod_cast h2)
  omega

theorem roundHalfEven_of_lt (q : ℚ) (n : ℤ) (h1 : (n : ℚ) ≤ q) (h2 : q < n + 1 / 2) :
    roundHalfEven q = n := by
  have hf : ⌊q⌋ = n := Int.floor_eq_iff.mpr ⟨h1, by linarith⟩
  unfold roundHalfEven
  simp only [hf]
  rw [if_pos (by linarith)]

theorem roundHalfEven_tie_odd (q : ℚ) (n : ℤ) (h : q = n + 1 / 2) (hn : n % 2 = 1) :
    roundHalfEven q = n + 1 := by
  have hf : ⌊q⌋ = n := Int.floor_eq_iff.mpr ⟨by linarith, by linarith⟩
  unfold roundHalfEven
  simp only [hf]
  rw [if_neg (by linarith), if_neg (by linarith), if_neg (by omega)]

theorem roundDouble_eq (q : ℚ) (e n : ℤ) (h1 : (2 : ℚ) ^ e ≤ q) (h2 : q < (2 : ℚ) ^ (e + 1))
    (he : -1022 ≤ e) (hn : roundHalfEven (q / 2 ^ (e - 52)) = n) :
    roundDouble q = n * 2 ^ (e - 52) := by
  have hpos : 0 < q := lt_of_lt_of_le (zpow_pos (by norm_num) e) h1
  unfold roundDouble
  rw [if_neg (ne_of_gt hpos)]
  simp only [abs_of_pos hpos, log_two_eq q e h1 h2, max_eq_left he, hn]

theorem roundDouble_seven_tenths :
    roundDouble (7 / 10) = 3152519739159347 / 4503599627370496 := by
  rw [roundDouble_eq (7 / 10) (-1) 6305039478318694 (by norm_num) (by norm_num) (by norm_num)
    (roundHalfEven_of_lt _ _ (by norm_num) (by norm_num))]
  norm_num

theorem jsMul_ten_seven_tenths : jsMul 10 (3152519739159347 / 4503599627370496) = 7 := by
  unfold jsMul
  rw [roundDouble_eq _ 2 7881299347898368 (by norm_num) (by norm_num) (by norm_num)
    (roundHalfEven_tie_odd _ 7881299347898367 (by norm_num) (by norm_num))]
  norm_num

theorem jsMul_ninety_seven_tenths :
    jsMul 90 (3152519739159347 / 4503599627370496) = 8866461766385663 / 140737488355328 := by
  unfold jsMul
  rw [roundDouble_eq _ 5 8866461766385663 (by norm_num) (by norm_num) (by norm_num)
    (roundHalfEven_of_lt _ _ (by norm_num) (by norm_num))]
  norm_num

/-! ## Food and food resource -/

/-- C1, as stated, fails: with `food.min = 5` and the other rules at their defaults an
empty world in year 0 is clamped to 5 and then spoiled down to 1, below `food.min`;
and with `foodSpoilage.foodDecr = 2` and the default `food.min = -10000` a balance of
20000 is spoiled down to -20000. -/
theorem c1_food_below_min :
    (Rules.change ⟨emptyStatistic 0 0, rulesWithFoodMin 5⟩).statistic.food = 1
      ∧ (Rules.change ⟨emptyStatistic 0 0, rulesWithFoodMin 5⟩).statistic.food
          < (rulesWithFoodMin 5).food.min
      ∧ (Rules.change ⟨emptyStatistic 0 20000, rulesWithFoodDecr 2⟩).statistic.food = -20000
      ∧ (Rules.change ⟨emptyStatistic 0 20000, rulesWithFoodDecr 2⟩).statistic.food
          < (rulesWithFoodDecr 2).food.min := by
  have h1 : (Rules.change ⟨emptyStatistic 0 0, rulesWithFoodMin 5⟩).statistic.food = 1 := by
    simp [Rules.change, Rules.changeWith, Rules.changeTraced, spoiledFood, spoiledFoodWith,
      spoilageApplies, yearRemainder, tracedRem, clampedFood, foodDelta, foodProduce,
      foodConsume, totalAdult, totalChildren, emptyStatistic, rulesWithFoodMin,
      Rules.construct, jsRem, jsTrunc]
    norm_num [Int.floor_eq_iff]
  have h2 : (Rules.change ⟨emptyStatistic 0 20000, rulesWithFoodDecr 2⟩).statistic.food
      = -20000 := by
    simp [Rules.change, Rules.changeWith, Rules.changeTraced, spoiledFood, spoiledFoodWith,
      spoilageApplies, yearRemainder, tracedRem, clampedFood, foodDelta, foodProduce,
      foodConsume, totalAdult, totalChildren, emptyStatistic, rulesWithFoodDecr,
      Rules.construct, jsRem, jsTrunc]
    norm_num [Int.floor_eq_iff]
  refine ⟨h1, ?_, h2, ?_⟩
  · rw [h1]
    norm_num [rulesWithFoodMin]
  · rw [h2]
    norm_num [rulesWithFoodDecr, Rules.construct]

/-- C1, amended: when the spoilage rule does not apply, or when `food.min ≤ 0` and
`foodSpoilage.foodDecr ≤ 1`, the food committed by `change` is at least `food.min`. -/
theorem c1_food_ge_min (w : World)
    (h : ¬ spoilageApplies w ∨ (w.rules.food.min ≤ 0 ∧ w.rules.foodSpoilage.foodDecr ≤ 1)) :
    w.rules.food.min ≤ (Rules.change w).statistic.food := by
  show w.rules.food.min ≤ spoiledFood w
  by_cases hs : spoilageApplies w
  · rcases h with h | ⟨hmin, hd⟩
    · exact absurd hs h
    · rw [spoiledFood_of_applies w hs]
      have hpos : 0 < clampedFood w := hs.2
      have hfl : ((⌊clampedFood w * w.rules.foodSpoilage.foodDecr⌋ : ℤ) : ℚ)
          ≤ clampedFood w * w.rules.foodSpoilage.foodDecr := Int.floor_le _
      have hmul : clampedFood w * w.rules.foodSpoilage.foodDecr ≤ clampedFood w := by
        nlinarith
      linarith
  · rw [spoiledFood_of_not w hs]
    exact foodMin_le_clampedFood w

/-- Witness of `c1_food_ge_min`: the food scenario in year 3 under the default rules,
where spoilage applies. -/
theorem c1_food_ge_min_witness :
    spoilageApplies ⟨scenarioStatistic 3 100, Rules.construct⟩
      ∧ Rules.construct.food.min
          ≤ (Rules.change ⟨scenarioStatistic 3 100, Rules.construct⟩).statistic.food := by
  refine ⟨?_, c1_food_ge_min _ (Or.inr ⟨?_, ?_⟩)⟩
  · simp [spoilageApplies, yearRemainder, tracedRem, clampedFood, foodDelta, foodProduce, foodConsume, totalAdult,
      totalChildren, scenarioStatistic, Rules.construct, jsRem, jsTrunc]
    norm_num
  · norm_num [Rules.construct]
  · norm_num [Rules.construct]

/-- C2: for non-negative `foodResource` and non-negative `men + women`, the amount
produced, `min(foodResource, totalAdult * food.adult)`, is at most `foodResource`, and
the `foodResource` committed by `change` is non-negative. -/
theorem c2_produce_le_resource (w : World)
    (_hr : 0 ≤ w.statistic.foodResource) (_ha : 0 ≤ w.statistic.men + w.statistic.women) :
    foodProduce w
        = min w.statistic.foodResource
            ((w.statistic.men + w.statistic.women) * w.rules.food.adult)
      ∧ foodProduce w ≤ w.statistic.foodResource
      ∧ 0 ≤ (Rules.change w).statistic.foodResource := by
  refine ⟨rfl, min_le_left _ _, ?_⟩
  show 0 ≤ newFoodResource w
  exact le_max_left _ _

/-- Witness of `c2_produce_le_resource`: the food scenario under the default rules. -/
theorem c2_produce_le_resource_witness :
    foodProduce ⟨scenarioStatistic 3 0, Rules.construct⟩ ≤ 100
      ∧ 0 ≤ (Rules.change ⟨scenarioStatistic 3 0, Rules.construct⟩).statistic.foodResource :=
  (c2_produce_le_resource ⟨scenarioStatistic 3 0, Rules.construct⟩
    (by norm_num [scenarioStatistic]) (by norm_num [scenarioStatistic])).2

/-- C3: for `foodResource ≥ 0`, `men + women ≥ 0` and `food.adult ≥ 0`, `change` commits
`foodResource - min(foodResource, (men + women) * food.adult)`; with `foodResource = 100`,
`men = women = 10` and `food.adult = 1` this is 80. -/
theorem c3_resource_depletes (w : World)
    (_hr : 0 ≤ w.statistic.foodResource) (_ha : 0 ≤ w.statistic.men + w.statistic.women)
    (_hf : 0 ≤ w.rules.food.adult) :
    (Rules.change w).statistic.foodResource
        = w.statistic.foodResource
            - min w.statistic.foodResource
                ((w.statistic.men + w.statistic.women) * w.rules.food.adult)
      ∧ (w.statistic.foodResource = 100 → w.statistic.men = 10 → w.statistic.women = 10 →
          w.rules.food.adult = 1 → (Rules.change w).statistic.foodResource = 80) := by
  have key : (Rules.change w).statistic.foodResource
      = w.statistic.foodResource
          - min w.statistic.foodResource
              ((w.statistic.men + w.statistic.women) * w.rules.food.adult) :=
    newFoodResource_eq w
  refine ⟨key, ?_⟩
  intro h1 h2 h3 h4
  rw [key, h1, h2, h3, h4]
  norm_num

/-- Witness of `c3_resource_depletes`: the food scenario under the default rules leaves
a food resource of 80. -/
theorem c3_resource_depletes_witness :
    (Rules.change ⟨scenarioStatistic 3 0, Rules.construct⟩).statistic.foodResource = 80 :=
  (c3_resource_depletes ⟨scenarioStatistic 3 0, Rules.construct⟩
    (by norm_num [scenarioStatistic]) (by norm_num [scenarioStatistic])
    (by norm_num [Rules.construct])).2 rfl rfl rfl rfl

/-- C4: with `B = max(food.min, food + min(foodResource, (men + women) * food.adult)
+ (boys + girls) * food.child)`, whenever `year % foodSpoilage.interval` is not `0` or
`B ≤ 0`, `change` commits `statistic.food = B`; in the food scenario this is the old
food plus 10 whenever that is at least `food.min`. -/
theorem c4_food_unspoiled (w : World)
    (h : jsRem w.statistic.year w.rules.foodSpoilage.interval ≠ JsNum.fin 0
      ∨ max w.rules.food.min
          (w.statistic.food
            + min w.statistic.foodResource
                ((w.statistic.men + w.statistic.women) * w.rules.food.adult)
            + (w.statistic.boys + w.statistic.girls) * w.rules.food.child) ≤ 0) :
    (Rules.change w).statistic.food
        = max w.rules.food.min
            (w.statistic.food
              + min w.statistic.foodResource
                  ((w.statistic.men + w.statistic.women) * w.rules.food.adult)
              + (w.statistic.boys + w.statistic.girls) * w.rules.food.child)
      ∧ (w.statistic.men = 10 → w.statistic.women = 10 → w.statistic.boys = 5 →
          w.statistic.girls = 5 → w.rules.food.adult = 1 → w.rules.food.child = -1 →
          w.statistic.foodResource = 100 → w.rules.food.min ≤ w.statistic.food + 10 →
          (Rules.change w).statistic.food = w.statistic.food + 10) := by
  have hB : clampedFood w
      = max w.rules.food.min
          (w.statistic.food
            + min w.statistic.foodResource
                ((w.statistic.men + w.statistic.women) * w.rules.food.adult)
            + (w.statistic.boys + w.statistic.girls) * w.rules.food.child) := by
    rw [clampedFood_eq_max, foodDelta_eq, add_assoc]
  have hs : ¬ spoilageApplies w := by
    rintro ⟨hy, hpos⟩
    rcases h with h | h
    · exact h hy
    · rw [← hB] at h
      exact absurd hpos (not_lt.mpr h)
  have key : (Rules.change w).statistic.food = clampedFood w := spoiledFood_of_not w hs
  refine ⟨by rw [key, hB], ?_⟩
  intro h1 h2 h3 h4 h5 h6 h7 h8
  rw [key, hB, h1, h2, h3, h4, h5, h6, h7]
  have e : w.statistic.food + min (100 : ℚ) ((10 + 10) * 1) + (5 + 5) * -1
      = w.statistic.food + 10 := by
    norm_num
    ring
  rw [e]
  exact max_eq_right h8

/-- Witness of `c4_food_unspoiled`: the food scenario in year 7 with a spoilage interval
of 100 years and a food balance of 50, which becomes 60. -/
theorem c4_food_unspoiled_witness :
    jsRem 7 100 ≠ JsNum.fin 0
      ∧ (Rules.change ⟨scenarioStatistic 7 50, rulesWithInterval 100⟩).statistic.food
          = 50 + 10 := by
  have hy : jsRem 7 100 ≠ JsNum.fin 0 := by
    simp [jsRem, jsTrunc]
    norm_num [Int.floor_eq_zero_iff]
  refine ⟨hy, (c4_food_unspoiled ⟨scenarioStatistic 7 50, rulesWithInterval 100⟩
    (Or.inl hy)).2 rfl rfl rfl rfl rfl rfl rfl ?_⟩
  norm_num [scenarioStatistic, rulesWithInterval, Rules.construct]

/-- C5, as stated with the exact product, fails: line 125 floors the product of doubles.
With `foodDecr = 0.7` (the double `3152519739159347 / 2 ^ 52`) and a clamped balance of
10 in a spoilage year, the product is rounded to 7 and `change` commits 3, while
`B - floor(B * foodDecr)` is 4; with a balance of 90 `change` commits 28, while the
decimal 0.7 would give 27. -/
theorem c5_exact_product_differs :
    roundDouble (7 / 10) = 3152519739159347 / 4503599627370496
      ∧ jsRem 3 1 = JsNum.fin 0
      ∧ clampedFood ⟨scenarioStatistic 3 0, rulesWithFoodDecr (roundDouble (7 / 10))⟩ = 10
      ∧ (Rules.changeWith jsMul
            ⟨scenarioStatistic 3 0, rulesWithFoodDecr (roundDouble (7 / 10))⟩).statistic.food
          = 3
      ∧ (10 : ℚ) - (⌊(10 : ℚ) * roundDouble (7 / 10)⌋ : ℤ) = 4
      ∧ (Rules.changeWith jsMul
            ⟨scenarioStatistic 3 0, rulesWithFoodDecr (roundDouble (7 / 10))⟩).statistic.food
          ≠ clampedFood ⟨scenarioStatistic 3 0, rulesWithFoodDecr (roundDouble (7 / 10))⟩
              - (⌊clampedFood ⟨scenarioStatistic 3 0, rulesWithFoodDecr (roundDouble (7 / 10))⟩
                  * (rulesWithFoodDecr (roundDouble (7 / 10))).foodSpoilage.foodDecr⌋ : ℤ)
      ∧ (Rules.changeWith jsMul
            ⟨scenarioStatistic 3 80, rulesWithFoodDecr (roundDouble (7 / 10))⟩).statistic.food
          = 28
      ∧ (90 : ℚ) - (⌊(90 : ℚ) * (7 / 10)⌋ : ℤ) = 27 := by
  have hy : jsRem 3 1 = JsNum.fin 0 := by
    simp [jsRem, jsTrunc]
  have hc10 : clampedFood ⟨scenarioStatistic 3 0, rulesWithFoodDecr (roundDouble (7 / 10))⟩
      = 10 := by
    norm_num [clampedFood, foodDelta, foodProduce, foodConsume, totalAdult, totalChildren,
      scenarioStatistic, rulesWithFoodDecr, Rules.construct]
  have hc90 : clampedFood ⟨scenarioStatistic 3 80, rulesWithFoodDecr (roundDouble (7 / 10))⟩
      = 90 := by
    norm_num [clampedFood, foodDelta, foodProduce, foodConsume, totalAdult, totalChildren,
      scenarioStatistic, rulesWithFoodDecr, Rules.construct]
  have hd : (rulesWithFoodDecr (roundDouble (7 / 10))).foodSpoilage.foodDecr
      = 3152519739159347 / 4503599627370496 := roundDouble_seven_tenths
  have h3 : (Rules.changeWith jsMul
      ⟨scenarioStatistic 3 0, rulesWithFoodDecr (roundDouble (7 / 10))⟩).statistic.food
      = 3 := by
    have hs : spoilageApplies
        ⟨scenarioStatistic 3 0, rulesWithFoodDecr (roundDouble (7 / 10))⟩ :=
      ⟨hy, by rw [hc10]; norm_num⟩
    show spoiledFoodWith jsMul _ = 3
    rw [spoiledFoodWith_of_applies jsMul _ hs, hc10]
    show (10 : ℚ) - (⌊jsMul 10 (rulesWithFoodDecr (roundDouble (7 / 10))).foodSpoilage.foodDecr⌋
      : ℤ) = 3
    rw [hd, jsMul_ten_seven_tenths]
    norm_num
  have h4 : (10 : ℚ) - (⌊(10 : ℚ) * roundDouble (7 / 10)⌋ : ℤ) = 4 := by
    rw [roundDouble_seven_tenths]
    norm_num [Int.floor_eq_iff]
  have h28 : (Rules.changeWith jsMul
      ⟨scenarioStatistic 3 80, rulesWithFoodDecr (roundDouble (7 / 10))⟩).statistic.food
      = 28 := by
    have hs : spoilageApplies
        ⟨scenarioStatistic 3 80, rulesWithFoodDecr (roundDouble (7 / 10))⟩ :=
      ⟨hy, by rw [hc90]; norm_num⟩
    show spoiledFoodWith jsMul _ = 28
    rw [spoiledFoodWith_of_applies jsMul _ hs, hc90]
    show (90 : ℚ) - (⌊jsMul 90 (rulesWithFoodDecr (roundDouble (7 / 10))).foodSpoilage.foodDecr⌋
      : ℤ) = 28
    rw [hd, jsMul_ninety_seven_tenths]
    norm_num [Int.floor_eq_iff]
  refine ⟨roundDouble_seven_tenths, hy, hc10, h3, h4, ?_, h28, ?_⟩
  · rw [h3, hc10, hd, ← roundDouble_seven_tenths, h4]
    norm_num
  · norm_num [Int.floor_eq_iff]

/-- C5, amended: whenever `year % foodSpoilage.interval` is `0` and the clamped food
balance `B` is strictly positive, `change` commits `statistic.food = B - floor(p)`, where
`p` is the product `B * foodSpoilage.foodDecr` of doubles, rounded to the nearest
double. -/
theorem c5_food_spoiled_rounded (w : World)
    (hy : jsRem w.statistic.year w.rules.foodSpoilage.interval = JsNum.fin 0)
    (hB : 0 < max w.rules.food.min
          (w.statistic.food
            + min w.statistic.foodResource
                ((w.statistic.men + w.statistic.women) * w.rules.food.adult)
            + (w.statistic.boys + w.statistic.girls) * w.rules.food.child)) :
    (Rules.changeWith jsMul w).statistic.food
      = max w.rules.food.min
            (w.statistic.food
              + min w.statistic.foodResource
                  ((w.statistic.men + w.statistic.women) * w.rules.food.adult)
              + (w.statistic.boys + w.statistic.girls) * w.rules.food.child)
          - (⌊jsMul
                (max w.rules.food.min
                  (w.statistic.food
                    + min w.statistic.foodResource
                        ((w.statistic.men + w.statistic.women) * w.rules.food.adult)
                    + (w.statistic.boys + w.statistic.girls) * w.rules.food.child))
                w.rules.foodSpoilage.foodDecr⌋ : ℤ) := by
  have hc : clampedFood w
      = max w.rules.food.min
          (w.statistic.food
            + min w.statistic.foodResource
                ((w.statistic.men + w.statistic.women) * w.rules.food.adult)
            + (w.statistic.boys + w.statistic.girls) * w.rules.food.child) := by
    rw [clampedFood_eq_max, foodDelta_eq, add_assoc]
  rw [← hc] at hB ⊢
  exact spoiledFoodWith_of_applies jsMul w ⟨hy, hB⟩

/-- Witness of `c5_food_spoiled_rounded`: the food scenario in year 3 with a food balance
of 80 and `foodDecr = 0.7`: the clamped balance 90 is spoiled down to 28. -/
theorem c5_food_spoiled_rounded_witness :
    jsRem 3 1 = JsNum.fin 0
      ∧ (Rules.changeWith jsMul
            ⟨scenarioStatistic 3 80, rulesWithFoodDecr (roundDouble (7 / 10))⟩).statistic.food
          = 28 := by
  have hy : jsRem 3 1 = JsNum.fin 0 := by
    simp [jsRem, jsTrunc]
  have hm : max (-10000 : ℚ) (80 + min (100 : ℚ) ((10 + 10) * 1) + (5 + 5) * -1) = 90 := by
    norm_num
  have h := c5_food_spoiled_rounded
    ⟨scenarioStatistic 3 80, rulesWithFoodDecr (roundDouble (7 / 10))⟩ hy
    (by
      show 0 < max (-10000 : ℚ) (80 + min (100 : ℚ) ((10 + 10) * 1) + (5 + 5) * -1)
      rw [hm]
      norm_num)
  refine ⟨hy, h.trans ?_⟩
  show max (-10000 : ℚ) (80 + min (100 : ℚ) ((10 + 10) * 1) + (5 + 5) * -1)
      - (⌊jsMul (max (-10000 : ℚ) (80 + min (100 : ℚ) ((10 + 10) * 1) + (5 + 5) * -1))
          (roundDouble (7 / 10))⌋ : ℤ) = 28
  rw [hm, roundDouble_seven_tenths, jsMul_ninety_seven_tenths]
  norm_num [Int.floor_eq_iff]

/-- C6 fails on the code: the constructor sets `foodSpoilage.interval` to 1, not 100.
Under the default rules the food scenario in year 7, which is not a multiple of 100, has
a clamped food balance of 110 and `change` commits 11: spoilage has subtracted 99. -/
theorem c6_default_spoils_every_year :
    Rules.construct.foodSpoilage.interval = 1
      ∧ jsRem 7 100 ≠ JsNum.fin 0
      ∧ clampedFood ⟨scenarioStatistic 7 100, Rules.construct⟩ = 110
      ∧ (Rules.change ⟨scenarioStatistic 7 100, Rules.construct⟩).statistic.food = 11 := by
  refine ⟨rfl, ?_, ?_, ?_⟩
  · simp [jsRem, jsTrunc]
    norm_num [Int.floor_eq_zero_iff]
  · norm_num [clampedFood, foodDelta, foodProduce, foodConsume, totalAdult, totalChildren,
      scenarioStatistic, Rules.construct]
  · simp [Rules.change, Rules.changeWith, Rules.changeTraced, spoiledFood, spoiledFoodWith,
      spoilageApplies, yearRemainder, tracedRem, clampedFood, foodDelta, foodProduce,
      foodConsume, totalAdult, totalChildren, scenarioStatistic, Rules.construct, jsRem,
      jsTrunc]
    norm_num [Int.floor_eq_iff]

/-! ## Death chance -/

/-- C7: the `chance.death` committed by `change` is the sum of the famine term, the
crowding term and `chanceIncr.death`; when `famine.unit` is not zero this is the rational
`(floor(B / unit) * deathChanceIncr or 0) + (excess * deathChanceIncr or 0) +
chanceIncr.death`; and a population of 150 with a limit of 100 and an increment of 0.1
makes the crowding term exactly 5. -/
theorem c7_death_chance_sum (w : World) :
    (Rules.change w).rules.chance.death
        = JsNum.add (JsNum.add (famineTerm w) (JsNum.fin (crowdingTerm w)))
            (JsNum.fin w.rules.chanceIncr.death)
      ∧ (w.rules.famine.unit ≠ 0 →
          (Rules.change w).rules.chance.death
            = JsNum.fin
                ((if clampedFood w ≤ w.rules.famine.unit then
                    (⌊clampedFood w / w.rules.famine.unit⌋ : ℤ) * w.rules.famine.deathChanceIncr
                  else 0)
                + (if w.statistic.population > w.rules.population.limit then
                    (w.statistic.population - w.rules.population.limit)
                      * w.rules.largeCooperation.deathChanceIncr
                  else 0)
                + w.rules.chanceIncr.death))
      ∧ (w.statistic.population = 150 → w.rules.population.limit = 100 →
          w.rules.largeCooperation.deathChanceIncr = 1 / 10 → crowdingTerm w = 5) := by
  have key : (Rules.change w).rules.chance.death
      = JsNum.add (JsNum.add (famineTerm w) (JsNum.fin (crowdingTerm w)))
          (JsNum.fin w.rules.chanceIncr.death) := by
    show JsNum.add (deathChanceAfterLimit w) _ = _
    rw [deathChanceAfterLimit_eq]
  refine ⟨key, ?_, ?_⟩
  · intro hu
    rw [key]
    have hf : famineTerm w
        = JsNum.fin (if clampedFood w ≤ w.rules.famine.unit then
            (⌊clampedFood w / w.rules.famine.unit⌋ : ℤ) * w.rules.famine.deathChanceIncr
          else 0) := by
      unfold famineTerm
      split_ifs
      · rw [famineSteps_eq w hu]
        rfl
      · rfl
    rw [hf, JsNum.add_fin_fin, JsNum.add_fin_fin]
    rfl
  · intro h1 h2 h3
    unfold crowdingTerm
    rw [h1, h2, h3]
    norm_num

/-- C8: when `famine.unit < 0` and the clamped food balance is at most `famine.unit`,
the number of famine steps `floor(food / famine.unit)` is an integer that is at least 1,
and exactly 1 when `food = famine.unit`; the famine rule leaves
`steps * famine.deathChanceIncr` in `deathChance`, and `change` commits that plus the
crowding term plus `chanceIncr.death`; a food of -250 with unit -100 and increment 0.1
gives 2 steps and a famine term of 0.2. -/
theorem c8_famine_steps (w : World)
    (hu : w.rules.famine.unit < 0) (hB : clampedFood w ≤ w.rules.famine.unit) :
    JsNum.floor (jsDiv (clampedFood w) w.rules.famine.unit)
        = JsNum.fin (⌊clampedFood w / w.rules.famine.unit⌋ : ℤ)
      ∧ 1 ≤ ⌊clampedFood w / w.rules.famine.unit⌋
      ∧ (clampedFood w = w.rules.famine.unit → ⌊clampedFood w / w.rules.famine.unit⌋ = 1)
      ∧ deathChanceAfterFamine w
          = JsNum.fin ((⌊clampedFood w / w.rules.famine.unit⌋ : ℤ)
              * w.rules.famine.deathChanceIncr)
      ∧ (Rules.change w).rules.chance.death
          = JsNum.fin ((⌊clampedFood w / w.rules.famine.unit⌋ : ℤ)
              * w.rules.famine.deathChanceIncr + crowdingTerm w + w.rules.chanceIncr.death)
      ∧ (clampedFood w = -250 → w.rules.famine.unit = -100 →
          w.rules.famine.deathChanceIncr = 1 / 10 →
          ⌊clampedFood w / w.rules.famine.unit⌋ = 2
            ∧ deathChanceAfterFamine w = JsNum.fin (1 / 5)) := by
  have hne : w.rules.famine.unit ≠ 0 := ne_of_lt hu
  have hsteps := famineSteps_eq w hne
  have hterm : deathChanceAfterFamine w
      = JsNum.fin ((⌊clampedFood w / w.rules.famine.unit⌋ : ℤ)
          * w.rules.famine.deathChanceIncr) := by
    rw [deathChanceAfterFamine_eq]
    unfold famineTerm
    rw [if_pos hB, hsteps]
    rfl
  refine ⟨hsteps, ?_, ?_, hterm, ?_, ?_⟩
  · rw [Int.le_floor]
    push_cast
    exact (one_le_div_of_neg hu).mpr hB
  · intro he
    rw [he, div_self hne]
    exact Int.floor_one
  · show JsNum.add (deathChanceAfterLimit w) _ = _
    rw [deathChanceAfterLimit_eq, ← deathChanceAfterFamine_eq, hterm]
    rfl
  · intro h1 h2 h3
    have h2s : ⌊clampedFood w / w.rules.famine.unit⌋ = 2 := by
      rw [h1, h2, Int.floor_eq_iff]
      norm_num
    refine ⟨h2s, ?_⟩
    rw [hterm, h2s, h3]
    norm_num

/-- Witness of `c8_famine_steps`: the food scenario with a food balance of -260 under
the default rules: the clamped balance is -250, `change` counts 2 famine steps and
commits a death chance of 0.2. -/
theorem c8_famine_steps_witness :
    Rules.construct.famine.unit < 0
      ∧ clampedFood ⟨scenarioStatistic 3 (-260), Rules.construct⟩ = -250
      ∧ JsNum.floor (jsDiv (clampedFood ⟨scenarioStatistic 3 (-260), Rules.construct⟩)
          Rules.construct.famine.unit) = JsNum.fin 2
      ∧ (Rules.change ⟨scenarioStatistic 3 (-260), Rules.construct⟩).rules.chance.death
          = JsNum.fin (1 / 5) := by
  have hu : Rules.construct.famine.unit < 0 := by norm_num [Rules.construct]
  have hc : clampedFood ⟨scenarioStatistic 3 (-260), Rules.construct⟩ = -250 := by
    norm_num [clampedFood, foodDelta, foodProduce, foodConsume, totalAdult, totalChildren,
      scenarioStatistic, Rules.construct]
  have hB : clampedFood ⟨scenarioStatistic 3 (-260), Rules.construct⟩
      ≤ Rules.construct.famine.unit := by
    rw [hc]
    norm_num [Rules.construct]
  have h := c8_famine_steps ⟨scenarioStatistic 3 (-260), Rules.construct⟩ hu hB
  have h2 := (h.2.2.2.2.2 hc rfl rfl).1
  refine ⟨hu, hc, ?_, ?_⟩
  · rw [h.1]
    exact congrArg (fun z : ℤ => JsNum.fin (z : ℚ)) h2
  · rw [h.2.2.2.2.1]
    have h2q : ((⌊clampedFood ⟨scenarioStatistic 3 (-260), Rules.construct⟩
        / (⟨scenarioStatistic 3 (-260), Rules.construct⟩ : World).rules.famine.unit⌋ : ℤ) : ℚ)
        = 2 := by
      exact_mod_cast h2
    rw [h2q]
    norm_num [crowdingTerm, scenarioStatistic, Rules.construct]

/-- C9: when the clamped food balance is strictly greater than `famine.unit`, the famine
rule adds nothing, and `change` commits `chance.death = crowding term +
chanceIncr.death`. -/
theorem c9_no_famine (w : World) (h : w.rules.famine.unit < clampedFood w) :
    deathChanceAfterFamine w = JsNum.fin 0
      ∧ (Rules.change w).rules.chance.death
          = JsNum.fin
              ((if w.statistic.population > w.rules.population.limit then
                  (w.statistic.population - w.rules.population.limit)
                    * w.rules.largeCooperation.deathChanceIncr
                else 0)
              + w.rules.chanceIncr.death) := by
  have hf : famineTerm w = JsNum.fin 0 := by
    unfold famineTerm
    rw [if_neg (not_le.mpr h)]
  refine ⟨by rw [deathChanceAfterFamine_eq, hf], ?_⟩
  show JsNum.add (deathChanceAfterLimit w) _ = _
  rw [deathChanceAfterLimit_eq, hf, JsNum.add_fin_fin, JsNum.add_fin_fin, zero_add]
  rfl

/-- Witness of `c9_no_famine`: the food scenario with a food balance of 50, a population
of 130 and an external increment of 1/4: the death chance is 3 + 1/4. -/
theorem c9_no_famine_witness :
    (Rules.change
        ⟨{ scenarioStatistic 3 50 with population := 130 },
          { Rules.construct with chanceIncr := { death := 1 / 4, marriage := 0, childbirth := 0 } }⟩
      ).rules.chance.death = JsNum.fin (13 / 4) := by
  rw [(c9_no_famine
    ⟨{ scenarioStatistic 3 50 with population := 130 },
      { Rules.construct with chanceIncr := { death := 1 / 4, marriage := 0, childbirth := 0 } }⟩
    (by norm_num [clampedFood, foodDelta, foodProduce, foodConsume, totalAdult, totalChildren,
      scenarioStatistic, Rules.construct])).2]
  norm_num [scenarioStatistic, Rules.construct]

/-- C10: when `population ≤ population.limit`, the population limit rule adds nothing,
and `change` commits `chance.death = famine term + chanceIncr.death`, whatever value
`largeCooperation.deathChanceIncr` has. -/
theorem c10_no_crowding (w : World) (h : w.statistic.population ≤ w.rules.population.limit) :
    deathChanceAfterLimit w = deathChanceAfterFamine w
      ∧ ∀ x : ℚ,
          (Rules.change
              { w with
                rules :=
                  { w.rules with
                    largeCooperation :=
                      { w.rules.largeCooperation with deathChanceIncr := x } } }
            ).rules.chance.death
            = JsNum.add (famineTerm w) (JsNum.fin w.rules.chanceIncr.death) := by
  have hn : ¬ w.statistic.population > w.rules.population.limit := not_lt.mpr h
  constructor
  · unfold deathChanceAfterLimit
    simp only []
    rw [if_neg hn]
  · intro x
    show JsNum.add (deathChanceAfterLimit _) _ = _
    unfold deathChanceAfterLimit
    simp only []
    rw [if_neg hn, deathChanceAfterFamine_eq]
    rfl

/-- Witness of `c10_no_crowding`: the food scenario (population 30, limit 100) with a
food balance of -260 and a crowding increment of 7: the death chance is the famine term
0.2 alone. -/
theorem c10_no_crowding_witness :
    (scenarioStatistic 3 (-260)).population ≤ Rules.construct.population.limit
      ∧ (Rules.change
            ⟨scenarioStatistic 3 (-260),
              { Rules.construct with
                largeCooperation := { deathChanceIncr := 7, unit := 1 } }⟩
          ).rules.chance.death = JsNum.fin (1 / 5) := by
  have hp : (scenarioStatistic 3 (-260)).population ≤ Rules.construct.population.limit := by
    norm_num [scenarioStatistic, Rules.construct]
  refine ⟨hp, ?_⟩
  have h := (c10_no_crowding ⟨scenarioStatistic 3 (-260), Rules.construct⟩ hp).2 7
  refine h.trans ?_
  simp [famineTerm, clampedFood, foodDelta, foodProduce, foodConsume, totalAdult,
    totalChildren, scenarioStatistic, Rules.construct, jsDiv, JsNum.floor, JsNum.mul,
    JsNum.add]
  norm_num [Int.floor_eq_iff]

/-! ## Further auxiliary facts -/

theorem famineTerm_eq_fin (w : World) (hu : w.rules.famine.unit ≠ 0) :
    famineTerm w
      = JsNum.fin
          (famineValue (clampedFood w) w.rules.famine.unit w.rules.famine.deathChanceIncr) := by
  unfold famineTerm famineValue
  split_ifs
  · rw [famineSteps_eq w hu]
    rfl
  · rfl

theorem death_eq_fin (w : World) (hu : w.rules.famine.unit ≠ 0) :
    (Rules.change w).rules.chance.death
      = JsNum.fin
          (famineValue (clampedFood w) w.rules.famine.unit w.rules.famine.deathChanceIncr
            + crowdingTerm w + w.rules.chanceIncr.death) := by
  show JsNum.add (deathChanceAfterLimit w) _ = _
  rw [deathChanceAfterLimit_eq, famineTerm_eq_fin w hu]
  rfl

theorem famineValue_nonneg (food unit incr : ℚ) (hu : unit < 0) (hi : 0 ≤ incr) :
    0 ≤ famineValue food unit incr := by
  unfold famineValue
  split_ifs with h
  · have h1 : (1 : ℚ) ≤ food / unit := (one_le_div_of_neg hu).mpr h
    have h2 : (0 : ℤ) ≤ ⌊food / unit⌋ := Int.floor_nonneg.mpr (by linarith)
    have h3 : (0 : ℚ) ≤ (⌊food / unit⌋ : ℤ) := by exact_mod_cast h2
    exact mul_nonneg h3 hi
  · exact le_refl 0

theorem famineValue_antitone (f1 f2 unit incr : ℚ) (hu : unit < 0) (hi : 0 ≤ incr)
    (h : f1 ≤ f2) : famineValue f2 unit incr ≤ famineValue f1 unit incr := by
  by_cases h2 : f2 ≤ unit
  · have h1 : f1 ≤ unit := le_trans h h2
    unfold famineValue
    rw [if_pos h1, if_pos h2]
    have hq : f2 / unit ≤ f1 / unit := div_le_div_of_nonpos_of_le (le_of_lt hu) h
    have hz : ⌊f2 / unit⌋ ≤ ⌊f1 / unit⌋ := Int.floor_mono hq
    have hc : ((⌊f2 / unit⌋ : ℤ) : ℚ) ≤ (⌊f1 / unit⌋ : ℤ) := by exact_mod_cast hz
    exact mul_le_mul_of_nonneg_right hc hi
  · have e : famineValue f2 unit incr = 0 := by
      unfold famineValue
      rw [if_neg h2]
    rw [e]
    exact famineValue_nonneg f1 unit incr hu hi

theorem clampedFood_withFood (w : World) (f : ℚ) :
    clampedFood (withFood w f) = max w.rules.food.min (f + foodDelta w) := by
  rw [clampedFood_eq_max]
  rfl

/-! ## Reset, frame and totality -/

/-- C11: two worlds that agree on everything except the previous value of
`rules.chance.death` are taken by `change` to the same `chance.death`, the same food and
the same food resource (to the same world, in fact); and the death chance of a second
call is the one computed from the statistics of the first call and the rules as they were
before it, so nothing accumulates in `chance.death`. -/
theorem c11_death_chance_reset (w : World) (d : JsNum) :
    (Rules.change (withDeathChance w d)).rules.chance.death
        = (Rules.change w).rules.chance.death
      ∧ (Rules.change (withDeathChance w d)).statistic.food = (Rules.change w).statistic.food
      ∧ (Rules.change (withDeathChance w d)).statistic.foodResource
          = (Rules.change w).statistic.foodResource
      ∧ Rules.change (withDeathChance w d) = Rules.change w
      ∧ (Rules.change (Rules.change w)).rules.chance.death
          = (Rules.change ⟨(Rules.change w).statistic, w.rules⟩).rules.chance.death :=
  ⟨rfl, rfl, rfl, rfl, rfl⟩

/-- C12: `change` writes `statistic.food`, `statistic.foodResource` and
`rules.chance.death` only: the year, the population, the numbers of men, women, boys and
girls, and every other field of the rules are the same after the call as before. -/
theorem c12_frame (w : World) :
    ((Rules.change w).statistic.year = w.statistic.year
        ∧ (Rules.change w).statistic.population = w.statistic.population
        ∧ (Rules.change w).statistic.men = w.statistic.men
        ∧ (Rules.change w).statistic.women = w.statistic.women
        ∧ (Rules.change w).statistic.boys = w.statistic.boys
        ∧ (Rules.change w).statistic.girls = w.statistic.girls)
      ∧ ((Rules.change w).rules.population.limit = w.rules.population.limit
        ∧ (Rules.change w).rules.baseIQ = w.rules.baseIQ
        ∧ (Rules.change w).rules.chance.marriage = w.rules.chance.marriage
        ∧ (Rules.change w).rules.chance.childbirth = w.rules.chance.childbirth
        ∧ (Rules.change w).rules.chanceIncr = w.rules.chanceIncr
        ∧ (Rules.change w).rules.food = w.rules.food
        ∧ (Rules.change w).rules.famine = w.rules.famine
        ∧ (Rules.change w).rules.foodSpoilage = w.rules.foodSpoilage
        ∧ (Rules.change w).rules.largeCooperation = w.rules.largeCooperation)
      ∧ Rules.change w
          = { statistic :=
                { w.statistic with
                  food := (Rules.change w).statistic.food
                  foodResource := (Rules.change w).statistic.foodResource }
              rules :=
                { w.rules with
                  chance :=
                    { w.rules.chance with death := (Rules.change w).rules.chance.death } } } :=
  ⟨⟨rfl, rfl, rfl, rfl, rfl, rfl⟩, ⟨rfl, rfl, rfl, rfl, rfl, rfl, rfl, rfl, rfl⟩, rfl⟩

/-- C13, as stated, fails: with a non-zero `famine.unit` (the default -100) and
`foodSpoilage.interval = 0`, the call evaluates `7 % 0`, a remainder by zero, whose
value is `NaN`. -/
theorem c13_modulo_by_zero_reached :
    (rulesWithInterval 0).famine.unit ≠ 0
      ∧ ArithOp.rem 7 0 ∈ Rules.changeOps ⟨scenarioStatistic 7 100, rulesWithInterval 0⟩
      ∧ (∃ op ∈ Rules.changeOps ⟨scenarioStatistic 7 100, rulesWithInterval 0⟩,
          op.divisor = 0)
      ∧ jsRem 7 0 = JsNum.nan := by
  have hm : ArithOp.rem 7 0
      ∈ Rules.changeOps ⟨scenarioStatistic 7 100, rulesWithInterval 0⟩ := by
    rw [changeOps_eq]
    exact List.mem_append_right _ (List.mem_singleton.mpr rfl)
  refine ⟨?_, hm, ⟨_, hm, rfl⟩, ?_⟩
  · norm_num [rulesWithInterval, Rules.construct]
  · simp [jsRem]

/-- C13, amended: when `famine.unit` is not zero, a call of `change` returns its committed
state together with the divisions and remainders it has evaluated, and none of the
divisions has a zero divisor; a remainder with a zero divisor is among them exactly when
`foodSpoilage.interval` is zero; so when `foodSpoilage.interval` is not zero either, no
division or remainder by zero is evaluated. -/
theorem c13_total (w : World) (hu : w.rules.famine.unit ≠ 0) :
    (∀ mul : ℚ → ℚ → ℚ,
        Rules.changeTraced mul w = (Rules.changeWith mul w, Rules.changeOps w))
      ∧ (∀ a b : ℚ, ArithOp.div a b ∈ Rules.changeOps w → b ≠ 0)
      ∧ ((∃ a b : ℚ, ArithOp.rem a b ∈ Rules.changeOps w ∧ b = 0)
          ↔ w.rules.foodSpoilage.interval = 0)
      ∧ (w.rules.foodSpoilage.interval ≠ 0 → ∀ op ∈ Rules.changeOps w, op.divisor ≠ 0) := by
  have hops : ∀ op ∈ Rules.changeOps w,
      op = ArithOp.div (clampedFood w) w.rules.famine.unit
        ∨ op = ArithOp.rem w.statistic.year w.rules.foodSpoilage.interval := by
    intro op hop
    rw [changeOps_eq] at hop
    rcases List.mem_append.mp hop with h | h
    · split_ifs at h
      · exact Or.inl (List.mem_singleton.mp h)
      · exact absurd h (List.not_mem_nil _)
    · exact Or.inr (List.mem_singleton.mp h)
  have hrem : ArithOp.rem w.statistic.year w.rules.foodSpoilage.interval
      ∈ Rules.changeOps w := by
    rw [changeOps_eq]
    exact List.mem_append_right _ (List.mem_singleton.mpr rfl)
  refine ⟨fun _ => rfl, ?_, ⟨?_, ?_⟩, ?_⟩
  · intro a b hab
    rcases hops _ hab with h | h
    · injection h with _ hb
      rw [hb]
      exact hu
    · exact ArithOp.noConfusion h
  · rintro ⟨a, b, hab, hb⟩
    rcases hops _ hab with h | h
    · exact ArithOp.noConfusion h
    · injection h with _ hb2
      rw [← hb2]
      exact hb
  · intro hi
    exact ⟨_, _, hrem, hi⟩
  · intro hi op hop
    rcases hops op hop with h | h
    · rw [h]
      exact hu
    · rw [h]
      exact hi

/-- Witness of `c13_total`: the food scenario with a food balance of -260 in year 7 under
the default rules: the call evaluates `-250 / -100` and `7 % 1`, and no divisor is
zero. -/
theorem c13_total_witness :
    Rules.construct.famine.unit ≠ 0
      ∧ Rules.changeOps ⟨scenarioStatistic 7 (-260), Rules.construct⟩
          = [ArithOp.div (-250) (-100), ArithOp.rem 7 1]
      ∧ ∀ op ∈ Rules.changeOps ⟨scenarioStatistic 7 (-260), Rules.construct⟩,
          op.divisor ≠ 0 := by
  have hu : Rules.construct.famine.unit ≠ 0 := by norm_num [Rules.construct]
  have h := c13_total ⟨scenarioStatistic 7 (-260), Rules.construct⟩ hu
  refine ⟨hu, ?_, h.2.2.2 ?_⟩
  · have hc : clampedFood ⟨scenarioStatistic 7 (-260), Rules.construct⟩ = -250 := by
      norm_num [clampedFood, foodDelta, foodProduce, foodConsume, totalAdult, totalChildren,
        scenarioStatistic, Rules.construct]
    rw [changeOps_eq, hc]
    norm_num [scenarioStatistic, Rules.construct]
  · norm_num [Rules.construct]

/-- C14: the `seedAdded` handler sets the individual's `iq` to its old value plus
`rules.baseIQ` and changes no other field of the individual, nothing in the rules and
nothing in the statistics; with the constructor's `baseIQ = 0` the `iq` is unchanged. -/
theorem c14_seed_added {α : Type} (w : World) (seed : Seed α) :
    (seedAdded w seed).2.iq = seed.iq + w.rules.baseIQ
      ∧ (seedAdded w seed).2.other = seed.other
      ∧ (seedAdded w seed).1.rules = w.rules
      ∧ (seedAdded w seed).1.statistic = w.statistic
      ∧ Rules.construct.baseIQ = 0
      ∧ (w.rules.baseIQ = 0 → (seedAdded w seed).2 = seed)
      ∧ (seedAdded ⟨w.statistic, Rules.construct⟩ seed).2.iq = seed.iq := by
  refine ⟨rfl, rfl, rfl, rfl, rfl, ?_, ?_⟩
  · intro h
    show ({ seed with iq := seed.iq + w.rules.baseIQ } : Seed α) = seed
    rw [h, add_zero]
  · show seed.iq + Rules.construct.baseIQ = seed.iq
    show seed.iq + 0 = seed.iq
    exact add_zero _

/-- C15: `change` commits the same food, food resource and death chance whatever the
values of `largeCooperation.unit` and `food.resourceIncr` are, and the crowding term is
`(population - population.limit) * largeCooperation.deathChanceIncr` for every unit. -/
theorem c15_unused_fields (w : World) (u r : ℚ) :
    (Rules.change (withUnitAndResourceIncr w u r)).statistic.food
        = (Rules.change w).statistic.food
      ∧ (Rules.change (withUnitAndResourceIncr w u r)).statistic.foodResource
          = (Rules.change w).statistic.foodResource
      ∧ (Rules.change (withUnitAndResourceIncr w u r)).rules.chance.death
          = (Rules.change w).rules.chance.death
      ∧ crowdingTerm (withUnitAndResourceIncr w u r)
          = if w.statistic.population > w.rules.population.limit then
              (w.statistic.population - w.rules.population.limit)
                * w.rules.largeCooperation.deathChanceIncr
            else 0 :=
  ⟨rfl, rfl, rfl, rfl⟩

/-! ## Bounds and monotonicity -/

/-- C16: in a spoilage year with a clamped food balance `B > 0` and
`0 ≤ foodSpoilage.foodDecr ≤ 1`, the committed food `F = B - floor(B * foodDecr)`
satisfies `0 ≤ F ≤ B`, and `0 < F` when `foodDecr < 1`. -/
theorem c16_spoilage_bounds (w : World)
    (hy : jsRem w.statistic.year w.rules.foodSpoilage.interval = JsNum.fin 0)
    (hB : 0 < clampedFood w)
    (hd0 : 0 ≤ w.rules.foodSpoilage.foodDecr) (hd1 : w.rules.foodSpoilage.foodDecr ≤ 1) :
    (Rules.change w).statistic.food
        = clampedFood w - (⌊clampedFood w * w.rules.foodSpoilage.foodDecr⌋ : ℤ)
      ∧ 0 ≤ (Rules.change w).statistic.food
      ∧ (Rules.change w).statistic.food ≤ clampedFood w
      ∧ (w.rules.foodSpoilage.foodDecr < 1 → 0 < (Rules.change w).statistic.food) := by
  have key : (Rules.change w).statistic.food
      = clampedFood w - (⌊clampedFood w * w.rules.foodSpoilage.foodDecr⌋ : ℤ) :=
    spoiledFood_of_applies w ⟨hy, hB⟩
  have hfl : ((⌊clampedFood w * w.rules.foodSpoilage.foodDecr⌋ : ℤ) : ℚ)
      ≤ clampedFood w * w.rules.foodSpoilage.foodDecr := Int.floor_le _
  have hprod : 0 ≤ clampedFood w * w.rules.foodSpoilage.foodDecr :=
    mul_nonneg (le_of_lt hB) hd0
  have hz : (0 : ℤ) ≤ ⌊clampedFood w * w.rules.foodSpoilage.foodDecr⌋ :=
    Int.floor_nonneg.mpr hprod
  have hzq : (0 : ℚ) ≤ (⌊clampedFood w * w.rules.foodSpoilage.foodDecr⌋ : ℤ) := by
    exact_mod_cast hz
  refine ⟨key, ?_, ?_, ?_⟩
  · rw [key]
    have : clampedFood w * w.rules.foodSpoilage.foodDecr ≤ clampedFood w := by nlinarith
    linarith
  · rw [key]
    linarith
  · intro hlt
    rw [key]
    have : clampedFood w * w.rules.foodSpoilage.foodDecr < clampedFood w := by nlinarith
    linarith

/-- Witness of `c16_spoilage_bounds`: the food scenario in year 3 under the default rules
(`foodDecr = 0.9`, interval 1): the balance of 110 is spoiled down to 11. -/
theorem c16_spoilage_bounds_witness :
    spoilageApplies ⟨scenarioStatistic 3 100, Rules.construct⟩
      ∧ 0 < (Rules.change ⟨scenarioStatistic 3 100, Rules.construct⟩).statistic.food
      ∧ (Rules.change ⟨scenarioStatistic 3 100, Rules.construct⟩).statistic.food
          ≤ clampedFood ⟨scenarioStatistic 3 100, Rules.construct⟩ := by
  have hs : spoilageApplies ⟨scenarioStatistic 3 100, Rules.construct⟩ := by
    simp [spoilageApplies, yearRemainder, tracedRem, clampedFood, foodDelta, foodProduce, foodConsume, totalAdult,
      totalChildren, scenarioStatistic, Rules.construct, jsRem, jsTrunc]
    norm_num
  have h := c16_spoilage_bounds ⟨scenarioStatistic 3 100, Rules.construct⟩ hs.1 hs.2
    (by norm_num [Rules.construct]) (by norm_num [Rules.construct])
  exact ⟨hs, h.2.2.2 (by norm_num [Rules.construct]), h.2.2.1⟩

/-- C17: for `famine.unit < 0` and `famine.deathChanceIncr ≥ 0` the famine term of a call
of `change` is a finite number that is at most
`floor(food.min / famine.unit) * famine.deathChanceIncr` when `food.min ≤ famine.unit`,
and is 0 when `food.min > famine.unit`; with `food.min = -10000`, `famine.unit = -100`
and an increment of 0.1 it is at most 10. -/
theorem c17_famine_bounded (w : World)
    (hu : w.rules.famine.unit < 0) (hi : 0 ≤ w.rules.famine.deathChanceIncr) :
    ∃ q : ℚ, deathChanceAfterFamine w = JsNum.fin q
      ∧ (w.rules.food.min ≤ w.rules.famine.unit →
          q ≤ (⌊w.rules.food.min / w.rules.famine.unit⌋ : ℤ) * w.rules.famine.deathChanceIncr)
      ∧ (w.rules.famine.unit < w.rules.food.min → q = 0)
      ∧ (w.rules.food.min = -10000 → w.rules.famine.unit = -100 →
          w.rules.famine.deathChanceIncr = 1 / 10 → q ≤ 10) := by
  have hbound : w.rules.food.min ≤ w.rules.famine.unit →
      famineValue (clampedFood w) w.rules.famine.unit w.rules.famine.deathChanceIncr
        ≤ (⌊w.rules.food.min / w.rules.famine.unit⌋ : ℤ) * w.rules.famine.deathChanceIncr := by
    intro hm
    have h := famineValue_antitone w.rules.food.min (clampedFood w) w.rules.famine.unit
      w.rules.famine.deathChanceIncr hu hi (foodMin_le_clampedFood w)
    have e : famineValue w.rules.food.min w.rules.famine.unit w.rules.famine.deathChanceIncr
        = (⌊w.rules.food.min / w.rules.famine.unit⌋ : ℤ) * w.rules.famine.deathChanceIncr := by
      unfold famineValue
      rw [if_pos hm]
    rw [e] at h
    exact h
  refine ⟨famineValue (clampedFood w) w.rules.famine.unit w.rules.famine.deathChanceIncr,
    ?_, hbound, ?_, ?_⟩
  · rw [deathChanceAfterFamine_eq, famineTerm_eq_fin w (ne_of_lt hu)]
  · intro hm
    have hlt : w.rules.famine.unit < clampedFood w :=
      lt_of_lt_of_le hm (foodMin_le_clampedFood w)
    unfold famineValue
    rw [if_neg (not_le.mpr hlt)]
  · intro h1 h2 h3
    have hb := hbound (by rw [h1, h2]; norm_num)
    have e : ((⌊w.rules.food.min / w.rules.famine.unit⌋ : ℤ) : ℚ)
        * w.rules.famine.deathChanceIncr = 10 := by
      have hf : ⌊w.rules.food.min / w.rules.famine.unit⌋ = 100 := by
        rw [h1, h2, Int.floor_eq_iff]
        norm_num
      rw [hf, h3]
      norm_num
    rw [e] at hb
    exact hb

/-- Witness of `c17_famine_bounded`: under the default rules the famine term of the food
scenario with a food balance of -260 is a finite number that is at most 10. -/
theorem c17_famine_bounded_witness :
    Rules.construct.famine.unit < 0 ∧ 0 ≤ Rules.construct.famine.deathChanceIncr
      ∧ ∃ q : ℚ,
          deathChanceAfterFamine ⟨scenarioStatistic 3 (-260), Rules.construct⟩ = JsNum.fin q
            ∧ q ≤ 10 := by
  have hu : Rules.construct.famine.unit < 0 := by norm_num [Rules.construct]
  have hi : 0 ≤ Rules.construct.famine.deathChanceIncr := by norm_num [Rules.construct]
  obtain ⟨q, hq, _, _, h10⟩ :=
    c17_famine_bounded ⟨scenarioStatistic 3 (-260), Rules.construct⟩ hu hi
  exact ⟨hu, hi, q, hq, h10 rfl rfl rfl⟩

/-- C18: when `famine.unit < 0`, no call of `change` satisfies both the famine condition
and the spoilage condition: a call whose famine term is not 0, or whose food balance is
at most `famine.unit`, commits the clamped food balance unspoiled, and a call that
applies spoilage leaves `deathChance` at 0 after the famine rule. -/
theorem c18_famine_spoilage_exclusive (w : World) (hu : w.rules.famine.unit < 0) :
    ¬ (clampedFood w ≤ w.rules.famine.unit
        ∧ (jsRem w.statistic.year w.rules.foodSpoilage.interval = JsNum.fin 0
          ∧ 0 < clampedFood w))
      ∧ (clampedFood w ≤ w.rules.famine.unit →
          (Rules.change w).statistic.food = clampedFood w)
      ∧ (deathChanceAfterFamine w ≠ JsNum.fin 0 →
          (Rules.change w).statistic.food = clampedFood w)
      ∧ (spoilageApplies w → deathChanceAfterFamine w = JsNum.fin 0) := by
  have hex : clampedFood w ≤ w.rules.famine.unit → ¬ spoilageApplies w := by
    rintro hf ⟨_, hpos⟩
    linarith
  have hterm : ¬ clampedFood w ≤ w.rules.famine.unit →
      deathChanceAfterFamine w = JsNum.fin 0 := by
    intro hn
    rw [deathChanceAfterFamine_eq]
    unfold famineTerm
    rw [if_neg hn]
  refine ⟨?_, ?_, ?_, ?_⟩
  · rintro ⟨hf, hs⟩
    exact hex hf hs
  · intro hf
    exact spoiledFood_of_not w (hex hf)
  · intro hne
    by_cases hf : clampedFood w ≤ w.rules.famine.unit
    · exact spoiledFood_of_not w (hex hf)
    · exact absurd (hterm hf) hne
  · intro hs
    by_cases hf : clampedFood w ≤ w.rules.famine.unit
    · exact absurd hs (hex hf)
    · exact hterm hf

/-- Witness of `c18_famine_spoilage_exclusive`: under the default rules the food scenario
with a food balance of -260 meets the famine condition in year 3, a spoilage year, and
commits the clamped balance -250. -/
theorem c18_famine_spoilage_exclusive_witness :
    Rules.construct.famine.unit < 0
      ∧ jsRem 3 1 = JsNum.fin 0
      ∧ (Rules.change ⟨scenarioStatistic 3 (-260), Rules.construct⟩).statistic.food = -250 := by
  have hu : Rules.construct.famine.unit < 0 := by norm_num [Rules.construct]
  have hc : clampedFood ⟨scenarioStatistic 3 (-260), Rules.construct⟩ = -250 := by
    norm_num [clampedFood, foodDelta, foodProduce, foodConsume, totalAdult, totalChildren,
      scenarioStatistic, Rules.construct]
  have h := (c18_famine_spoilage_exclusive
    ⟨scenarioStatistic 3 (-260), Rules.construct⟩ hu).2.1
    (by rw [hc]; norm_num [Rules.construct])
  refine ⟨hu, ?_, h.trans hc⟩
  simp [jsRem, jsTrunc]

/-- C19: for `famine.unit < 0` and `famine.deathChanceIncr ≥ 0`, if two states differ
only in their starting food, `f1 ≤ f2`, then both committed death chances are finite and
the one of the `f1` state is at least the one of the `f2` state. -/
theorem c19_death_chance_antitone (w : World) (f1 f2 : ℚ)
    (hu : w.rules.famine.unit < 0) (hi : 0 ≤ w.rules.famine.deathChanceIncr)
    (h : f1 ≤ f2) :
    ∃ q1 q2 : ℚ,
      (Rules.change (withFood w f1)).rules.chance.death = JsNum.fin q1
        ∧ (Rules.change (withFood w f2)).rules.chance.death = JsNum.fin q2
        ∧ q2 ≤ q1 := by
  have hne : w.rules.famine.unit ≠ 0 := ne_of_lt hu
  refine ⟨_, _, death_eq_fin (withFood w f1) hne, death_eq_fin (withFood w f2) hne, ?_⟩
  have hB : clampedFood (withFood w f1) ≤ clampedFood (withFood w f2) := by
    rw [clampedFood_withFood, clampedFood_withFood]
    exact max_le_max (le_refl _) (add_le_add_right h _)
  have hf := famineValue_antitone (clampedFood (withFood w f1)) (clampedFood (withFood w f2))
    w.rules.famine.unit w.rules.famine.deathChanceIncr hu hi hB
  have hc : crowdingTerm (withFood w f2) = crowdingTerm (withFood w f1) := rfl
  have e1 : (withFood w f1).rules = w.rules := rfl
  have e2 : (withFood w f2).rules = w.rules := rfl
  rw [hc, e1, e2]
  linarith

/-- Witness of `c19_death_chance_antitone`: under the default rules the food scenario with
a food balance of -260 gets a death chance of 0.2, and with a balance of 50 it gets 0. -/
theorem c19_death_chance_antitone_witness :
    (Rules.change (withFood ⟨scenarioStatistic 3 0, Rules.construct⟩ (-260))).rules.chance.death
        = JsNum.fin (1 / 5)
      ∧ (Rules.change (withFood ⟨scenarioStatistic 3 0, Rules.construct⟩ 50)).rules.chance.death
          = JsNum.fin 0
      ∧ ∃ q1 q2 : ℚ,
          (Rules.change
              (withFood ⟨scenarioStatistic 3 0, Rules.construct⟩ (-260))).rules.chance.death
            = JsNum.fin q1
          ∧ (Rules.change
              (withFood ⟨scenarioStatistic 3 0, Rules.construct⟩ 50)).rules.chance.death
            = JsNum.fin q2
          ∧ q2 ≤ q1 := by
  refine ⟨?_, ?_, c19_death_chance_antitone ⟨scenarioStatistic 3 0, Rules.construct⟩ (-260) 50
    (by norm_num [Rules.construct]) (by norm_num [Rules.construct]) (by norm_num)⟩
  · rw [death_eq_fin _ (by norm_num [withFood, Rules.construct])]
    simp [famineValue, crowdingTerm, clampedFood, foodDelta, foodProduce, foodConsume,
      totalAdult, totalChildren, withFood, scenarioStatistic, Rules.construct]
    norm_num [Int.floor_eq_iff]
  · rw [death_eq_fin _ (by norm_num [withFood, Rules.construct])]
    simp [famineValue, crowdingTerm, clampedFood, foodDelta, foodProduce, foodConsume,
      totalAdult, totalChildren, withFood, scenarioStatistic, Rules.construct]
    norm_num

end WorldJS
